import Mathlib

/-!
Verification of the Poseidon endpoint lifecycle engine
(`src/poseidon/main.py`) against its natural-language specification.

The development shallowly embeds the parts of `main.py` that the claims
touch: the observation merge rule (`SDNConnect.merge_machine_ip`), the
reconciliation step of `SDNConnect.find_new_machines`, the startup pass
`SDNConnect.default_endpoints`, the event-handler branches of
`Monitor.format_rabbit_message` (routing keys `poseidon.algos.decider`
and `poseidon.action.change`), the scheduling and staleness sweeps of
`Monitor.process`, and the periodic job `schedule_job_reinvestigation`.

Stateful Python code is embedded as explicit state passing: the registry
`self.s.endpoints` (a dict keyed by endpoint name) becomes a
`List Endpoint` in insertion order, in-place mutation of an endpoint
object becomes a by-name functional update of that list, and side
effects sent to the SDN controller (`Actions(...).mirror_endpoint()` /
`unmirror_endpoint()`) become emitted `Instr` values.

The `Endpoint` class itself (states, transition triggers) and the hash
helper `Endpoint.make_hash` live in `poseidon/helpers/endpoint.py`,
which is not part of the sources; those definitions are modelled from
the specification and marked as such in their doc comments.
-/

/-- The eight endpoint states of spec section 4.1, as used throughout
`main.py` via string literals. -/
inductive EpState where
  | known
  | unknown
  | mirroring
  | inactive
  | abnormal
  | shutdown
  | reinvestigating
  | queued
deriving DecidableEq, Repr

/-- Modelled from the spec: the endpoint transition function of
`poseidon/helpers/endpoint.py` (not among the sources). The transition
table of spec section 4.1 gives: `queue` and `mirror` take `unknown` to
`queued`; `mirror` and `reinvestigate` take `queued` to `mirroring` and
`reinvestigating`; `reinvestigate` takes `known`/`abnormal` back to
`queued`. The state-named events (`known`, `unknown`, `abnormal`,
`inactive`, `shutdown`) accept any source state: section 4.1 lists
`inactive` and `shutdown` with source `any`, section 4.4 (no-SDN
fallback) transitions every endpoint to `known` from any state, section
4.5 drives batch endpoints to `known`/`abnormal`/`unknown` with no state
precondition, and section 4.6 forces every loaded endpoint `inactive`.
Per section 7 item 4, an illegal or unrecognized transition forces the
endpoint to `unknown`. History appends are performed by the callers in
`main.py`, never here. -/
def EpState.trigger (s : EpState) (event : String) : EpState :=
  if event = "known" then .known
  else if event = "unknown" then .unknown
  else if event = "abnormal" then .abnormal
  else if event = "inactive" then .inactive
  else if event = "shutdown" then .shutdown
  else if event = "queue" then
    match s with
    | .unknown => .queued
    | _ => .unknown
  else if event = "mirror" then
    match s with
    | .unknown => .queued
    | .queued => .mirroring
    | _ => .unknown
  else if event = "reinvestigate" then
    match s with
    | .queued => .reinvestigating
    | .known => .queued
    | .abnormal => .queued
    | _ => .unknown
  else .unknown

/-- The observation dict attached to an endpoint (`endpoint_data` in
`main.py`). Fields that `main.py` reads with `dict.get(field, None)` and
that may be absent from the dict are `Option String`; `none` stands for
an absent key. `active` is the 0/1 integer flag. -/
structure Machine where
  mac : String
  segment : String
  port : String
  tenant : String
  vlan : String
  active : Nat
  name : Option String
  ether_vendor : String
  controller_type : String
  controller : String
  ipv4 : Option String
  ipv4_rdns : Option String
  ipv4_subnet : Option String
  ipv6 : Option String
  ipv6_rdns : Option String
  ipv6_subnet : Option String
deriving DecidableEq, Repr

/-- Python truthiness of an optional string value: an absent key and the
empty string are falsy (`if not ip and old_ip` in `merge_machine_ip`). -/
def strTruthy (v : Option String) : Bool :=
  match v with
  | none => false
  | some s => s ≠ ""

/-- Embedding of `SDNConnect.merge_machine_ip(old_machine, new_machine)`
(main.py lines 475-484). The Python code mutates `new_machine` in place
and only reads `old_machine`; the embedding returns the final value of
`new_machine`. `MACHINE_IP_FIELDS` (imported from
`poseidon/helpers/endpoint.py`, not among the sources) is modelled from
the spec merge rule of section 4.2: each IP field `ipv4`/`ipv6` carries
its dependent rDNS and subnet fields. For each IP field, when the new
observation has a falsy value and the old observation a truthy one, the
old IP is written into the new observation, and each dependent field
present in the old observation is copied over as well. -/
def merge_machine_ip (old_machine new_machine : Machine) : Machine :=
  let m1 :=
    if !strTruthy new_machine.ipv4 && strTruthy old_machine.ipv4 then
      { new_machine with
        ipv4 := old_machine.ipv4
        ipv4_rdns :=
          if old_machine.ipv4_rdns.isSome then old_machine.ipv4_rdns
          else new_machine.ipv4_rdns
        ipv4_subnet :=
          if old_machine.ipv4_subnet.isSome then old_machine.ipv4_subnet
          else new_machine.ipv4_subnet }
    else new_machine
  if !strTruthy m1.ipv6 && strTruthy old_machine.ipv6 then
    { m1 with
      ipv6 := old_machine.ipv6
      ipv6_rdns :=
        if old_machine.ipv6_rdns.isSome then old_machine.ipv6_rdns
        else m1.ipv6_rdns
      ipv6_subnet :=
        if old_machine.ipv6_subnet.isSome then old_machine.ipv6_subnet
        else m1.ipv6_subnet }
  else m1

/-- An endpoint of the registry `SDNConnect.endpoints`. `p_prev_states`
is the append-only history of `(state, unix seconds)` pairs;
`p_next_state` is the hint string (`None` or a transition verb). -/
structure Endpoint where
  name : String
  state : EpState
  ignore : Bool
  p_next_state : Option String
  p_prev_states : List (EpState × Nat)
  endpoint_data : Machine
deriving DecidableEq, Repr

/-- Modelled from the spec: `endpoint_factory(hash_id)` from
`poseidon/helpers/endpoint.py` (not among the sources) constructs a
fresh endpoint named by the hash; per section 4.1 the initial state is
`unknown`, and a fresh endpoint is not ignored and has no hint and no
history. The observation is filled in by the caller. -/
def endpoint_factory (h : String) (m : Machine) : Endpoint :=
  { name := h
    state := .unknown
    ignore := false
    p_next_state := none
    p_prev_states := []
    endpoint_data := m }

/-- A side effect requested from the SDN controller, emitted where
`main.py` calls `Actions(endpoint, sdnc).mirror_endpoint()` or
`unmirror_endpoint()`. The controller itself is an external collaborator
(spec sections 1 and 4.7), so the embedding records the instruction and
its target endpoint name instead of performing the RPC. -/
inductive Instr where
  | mirror (name : String)
  | unmirror (name : String)
deriving DecidableEq, Repr

/-- Is the state one of the two investigation states. -/
def invState (s : EpState) : Bool :=
  s = .mirroring || s = .reinvestigating

/-- The investigation count maintained by `Monitor.process`
(main.py lines 827-829): the number of registry endpoints whose state is
`mirroring` or `reinvestigating`. -/
def countInvestigations (eps : List Endpoint) : Nat :=
  eps.countP (fun e => invState e.state)

/-- Registry lookup `self.endpoints.get(h, None)` by endpoint name. -/
def epLookup (eps : List Endpoint) (h : String) : Option Endpoint :=
  eps.find? (fun e => e.name = h)

/-- Functional form of the in-place mutation of one endpoint object held
in the registry dict: every entry whose name matches is replaced by the
updated endpoint (with unique names, exactly the dict behavior). -/
def epUpdate (eps : List Endpoint) (n : String) (f : Endpoint → Endpoint) :
    List Endpoint :=
  eps.map (fun e => if e.name = n then f e else e)

/-- Embedding of the active-flag transition logic applied to an existing
endpoint whose merged observation differs from the stored one
(main.py lines 522-543). The stored observation is replaced by a deep
copy of the merged machine; then the inactive-to-active and
active-to-inactive transitions run against the endpoint state as of
entry. Returns the updated endpoint and the emitted instructions. -/
def applyMachineDiff (ep : Endpoint) (machine : Machine) (now : Nat) :
    Endpoint × List Instr :=
  let ep1 := { ep with endpoint_data := machine }
  if ep1.state = .inactive ∧ machine.active = 1 then
    let st :=
      if ep1.p_next_state = some "known" ∨ ep1.p_next_state = some "abnormal"
      then ep1.state.trigger (ep1.p_next_state.getD "")
      else ep1.state.trigger "unknown"
    ({ ep1 with state := st, p_prev_states := ep1.p_prev_states ++ [(st, now)] },
      [])
  else if ep1.state ≠ .inactive ∧ machine.active = 0 then
    let instrs := if invState ep1.state then [Instr.unmirror ep1.name] else []
    let hint :=
      if ep1.state = .mirroring then some "mirror"
      else if ep1.state = .reinvestigating then some "reinvestigate"
      else if ep1.state = .known ∨ ep1.state = .abnormal then
        some (if ep1.state = .known then "known" else "abnormal")
      else ep1.p_next_state
    let st := ep1.state.trigger "inactive"
    ({ ep1 with
        p_next_state := hint
        state := st
        p_prev_states := ep1.p_prev_states ++ [(st, now)] },
      instrs)
  else (ep1, [])

/-- Embedding of the per-observation body of
`SDNConnect.find_new_machines` (main.py lines 504-543) for one machine,
starting after the metadata enrichment: `h` is the result of the
`Endpoint.make_hash` call (that helper lives in
`poseidon/helpers/endpoint.py`, outside the sources, so the hash value
is taken as an argument). If the hash is unknown, a fresh endpoint is
created with one initial history entry and the (deep-copied) observation
and appended to the registry dict. Otherwise the stored observation is
merged into the incoming machine by `merge_machine_ip`; if the merged
machine still differs from the stored observation and the endpoint is
not ignored, the stored observation is overwritten and the active-flag
transitions run. Returns the new registry, the emitted instructions, and
the `change_acls` contribution of this machine. -/
def find_new_machines_step (eps : List Endpoint) (machine : Machine)
    (h : String) (now : Nat) : List Endpoint × List Instr × Bool :=
  match epLookup eps h with
  | none =>
    let m := { endpoint_factory h machine with
                p_prev_states := [(.unknown, now)] }
    (eps ++ [m], [], true)
  | some ep =>
    let merged := merge_machine_ip ep.endpoint_data machine
    if ep.endpoint_data ≠ merged ∧ ep.ignore = false then
      let upd := applyMachineDiff ep merged now
      (epUpdate eps ep.name (fun _ => upd.1), upd.2, true)
    else (eps, [], false)

/-- One value of the decider message object
`{name: {plugin, valid, decisions: {behavior}, source_mac, source_ip}}`
(spec section 4.5 payload shape). `main.py` reads `plugin` and `valid`
with `dict.get` and checks key presence of `valid`, `decisions` and
`behavior`, so those are `Option` fields with `none` for an absent key;
`behavior` stands for `decisions["behavior"]` and is `none` when either
nesting level is missing. -/
structure DeciderEntry where
  plugin : Option String
  valid : Option Bool
  behavior : Option String
  source_mac : String
  source_ip : String
deriving DecidableEq, Repr

/-- A decider message object: a Python dict keyed by endpoint name,
embedded as an association list in insertion order. -/
abbrev DeciderObj := List (String × DeciderEntry)

/-- Key lookup in a decider object (`my_obj.get(name)` / `name in my_obj`). -/
def objLookup (obj : DeciderObj) (n : String) : Option DeciderEntry :=
  (obj.find? (fun p => p.1 = n)).map (fun p => p.2)

/-- Python `dict.update`: entries of `u` overwrite same-keyed entries of
`d` in place and new keys are appended in the order of `u`. -/
def dictUpdate (d u : DeciderObj) : DeciderObj :=
  d.map (fun p =>
    match u.find? (fun q => q.1 = p.1) with
    | some q => q
    | none => p) ++
  u.filter (fun q => (d.find? (fun p => p.1 = q.1)).isNone)

/-- The update applied to one registry endpoint by the decider branch:
`endpoint.trigger("unknown")`, clear the hint, append one history
entry (main.py lines 675-678). -/
def deciderTouch (now : Nat) (e : Endpoint) : Endpoint :=
  let st := e.state.trigger "unknown"
  { e with
      state := st
      p_next_state := none
      p_prev_states := e.p_prev_states ++ [(st, now)] }

/-- Is a decider object entry acted upon by the decider branch: its name
resolves in the registry and its plugin field equals "ncapture"
(main.py line 674). Registry updates of the branch never change endpoint
names, so this predicate is stable across the iteration. -/
def deciderEligible (eps : List Endpoint) (p : String × DeciderEntry) : Bool :=
  (epLookup eps p.1).isSome && p.2.plugin = some "ncapture"

/-- The iteration of `Monitor.format_rabbit_message` over a
`poseidon.algos.decider` object (main.py lines 668-684): `pending` is
the not-yet-visited suffix of `my_obj`, `eps` the registry, `ret_val`
the accumulated return dict. Every eligible entry transitions its
endpoint to `unknown`; a truthy `valid` merges the whole message object
into `ret_val`, a falsy one resets `ret_val` to the empty dict and
breaks out of the loop. -/
def deciderLoop (now : Nat) (my_obj : DeciderObj) :
    DeciderObj → List Endpoint → DeciderObj → List Endpoint × DeciderObj
  | [], eps, ret_val => (eps, ret_val)
  | p :: pending, eps, ret_val =>
    if deciderEligible eps p then
      let eps2 := epUpdate eps p.1 (deciderTouch now)
      if p.2.valid.getD false then
        deciderLoop now my_obj pending eps2 (dictUpdate ret_val my_obj)
      else (eps2, [])
    else deciderLoop now my_obj pending eps ret_val

/-- Embedding of the `poseidon.algos.decider` branch of
`Monitor.format_rabbit_message` (main.py lines 666-685): returns the
updated registry and the returned dict. -/
def format_rabbit_message_decider (now : Nat) (eps : List Endpoint)
    (my_obj : DeciderObj) : List Endpoint × DeciderObj :=
  deciderLoop now my_obj my_obj eps []

/-- Embedding of the `poseidon.action.change` branch of
`Monitor.format_rabbit_message` for one `[name, state]` pair
(main.py lines 697-723): when the endpoint exists, first unmirror it if
the requested state is neither "mirror" nor "reinvestigate" while the
endpoint is in an investigation state, then force the transition, clear
the hint, append one history entry, and mirror it if the resulting state
is an investigation state. -/
def actionChange1 (now : Nat) (eps : List Endpoint)
    (pair : String × String) : List Endpoint × List Instr :=
  match epLookup eps pair.1 with
  | none => (eps, [])
  | some ep =>
    let pre :=
      if pair.2 ≠ "mirror" ∧ pair.2 ≠ "reinvestigate" ∧ invState ep.state
      then [Instr.unmirror ep.name] else []
    let st := ep.state.trigger pair.2
    let ep2 := { ep with
                  state := st
                  p_next_state := none
                  p_prev_states := ep.p_prev_states ++ [(st, now)] }
    let post := if invState st then [Instr.mirror ep.name] else []
    (epUpdate eps pair.1 (fun _ => ep2), pre ++ post)

/-- Embedding of the full `poseidon.action.change` branch: the pairs of
the message are applied in order. -/
def format_rabbit_message_change (now : Nat) (eps : List Endpoint)
    (pairs : List (String × String)) : List Endpoint × List Instr :=
  pairs.foldl
    (fun acc pair =>
      let r := actionChange1 now acc.1 pair
      (r.1, acc.2 ++ r.2))
    (eps, [])

/-- The per-endpoint body of the ML-results block of `Monitor.process`
(main.py lines 780-801). When the endpoint name is a key of
`ml_returns`, the entry has a `valid` key, and the endpoint is not
ignored: an investigation-state endpoint is unmirrored; then a truthy
`valid` drives the endpoint to `known` when `decisions["behavior"]`
equals "normal" and to `abnormal` otherwise, a falsy `valid` drives it
to `unknown`; one history entry is appended. -/
def processMlEndpoint (ml_returns : DeciderObj) (now : Nat)
    (e : Endpoint) : Endpoint × List Instr :=
  match objLookup ml_returns e.name with
  | none => (e, [])
  | some entry =>
    if entry.valid.isSome ∧ e.ignore = false then
      let instrs := if invState e.state then [Instr.unmirror e.name] else []
      let st :=
        if entry.valid.getD false then
          if entry.behavior = some "normal" then e.state.trigger "known"
          else e.state.trigger "abnormal"
        else e.state.trigger "unknown"
      ({ e with state := st, p_prev_states := e.p_prev_states ++ [(st, now)] },
        instrs)
    else (e, [])

/-- Embedding of the ML-results block of `Monitor.process`
(main.py lines 780-801) over the whole registry: each endpoint is
updated independently from its `ml_returns` entry, and the emitted
controller instructions are collected in registry order. -/
def process_ml_returns (ml_returns : DeciderObj) (now : Nat)
    (eps : List Endpoint) : List Endpoint × List Instr :=
  (eps.map (fun e => (processMlEndpoint ml_returns now e).1),
    eps.flatMap (fun e => (processMlEndpoint ml_returns now e).2))

/-- The `extras` dict of `Monitor.process` (main.py lines 778-782): a
deep copy of `ml_returns` from which every key naming a registry
endpoint has been deleted. -/
def extrasOf (eps : List Endpoint) (ml_returns : DeciderObj) : DeciderObj :=
  ml_returns.filter (fun p => (epLookup eps p.1).isNone)

/-- Embedding of the extra-machines loop of `Monitor.process`
(main.py lines 802-821). The Python code runs `for device in extras:`
where `extras` is a dict, so `device` ranges over the KEYS of the dict,
which are endpoint-name strings; the first statement of the body then
evaluates `device["valid"]`, subscripting a string with a string, which
raises `TypeError` before any synthetic machine is built. The loop
therefore yields the empty machine list when `extras` is empty and an
uncaught exception otherwise. -/
def build_extra_machines : DeciderObj → Except String (List Machine)
  | [] => Except.ok []
  | _ :: _ => Except.error "TypeError: string indices must be integers"

/-- The startup normalization of one loaded endpoint inside
`SDNConnect.default_endpoints` (main.py lines 171-185): a non-ignored
endpoint that is not already `inactive` gets its hint set from its
stored state (`mirror` for `mirroring`, `reinvestigate` for
`reinvestigating`, `queue` for `queued`, the state name itself for
`known`/`abnormal`, otherwise the hint is left alone), its observation
active flag cleared, is transitioned to `inactive`, and one history
entry is appended. Ignored or already-inactive endpoints are left
untouched. -/
def defaultEndpoint (now : Nat) (e : Endpoint) : Endpoint :=
  if e.ignore then e
  else if e.state = .inactive then e
  else
    let hint :=
      match e.state with
      | .mirroring => some "mirror"
      | .reinvestigating => some "reinvestigate"
      | .queued => some "queue"
      | .known => some "known"
      | .abnormal => some "abnormal"
      | _ => e.p_next_state
    let e1 := { e with
                 p_next_state := hint
                 endpoint_data := { e.endpoint_data with active := 0 } }
    let st := e1.state.trigger "inactive"
    { e1 with state := st, p_prev_states := e1.p_prev_states ++ [(st, now)] }

/-- Embedding of `SDNConnect.default_endpoints` (main.py lines 168-186)
applied to the registry loaded from persistence. -/
def default_endpoints (now : Nat) (eps : List Endpoint) : List Endpoint :=
  eps.map (defaultEndpoint now)

/-- The timestamp of the last history entry,
`endpoint.p_prev_states[-1][1]` (0 for an empty history, which the
Python code never reaches because every endpoint is created with an
initial entry). -/
def lastTs (e : Endpoint) : Nat :=
  ((e.p_prev_states.getLast?).map (fun p => p.2)).getD 0

/-- The per-endpoint body of the state-check sweep at the end of each
`Monitor.process` iteration (main.py lines 859-885). With an SDN
controller configured, a non-ignored `unknown` endpoint is queued with
hint "mirror", and a non-ignored investigation-state endpoint whose last
history entry is more than twice `reinvestigation_frequency` seconds old
is unmirrored and driven to `unknown`; without a controller every
non-ignored endpoint that is not `known` is driven to `known` (with no
history append, exactly as in the source). -/
def tickCheckEndpoint (sdnc : Bool) (freq now : Nat) (e : Endpoint) :
    Endpoint × List Instr :=
  if e.ignore then (e, [])
  else if sdnc then
    if e.state = .unknown then
      let e1 := { e with p_next_state := some "mirror" }
      let st := e1.state.trigger "queue"
      ({ e1 with state := st, p_prev_states := e1.p_prev_states ++ [(st, now)] },
        [])
    else if invState e.state then
      if now - lastTs e > 2 * freq then
        let st := e.state.trigger "unknown"
        ({ e with state := st, p_prev_states := e.p_prev_states ++ [(st, now)] },
          [Instr.unmirror e.name])
      else (e, [])
    else (e, [])
  else
    if e.state ≠ .known then ({ e with state := e.state.trigger "known" }, [])
    else (e, [])

/-- Embedding of the state-check sweep of `Monitor.process`
(main.py lines 859-885) over the whole registry. -/
def tick_state_check (sdnc : Bool) (freq now : Nat) (eps : List Endpoint) :
    List Endpoint × List Instr :=
  (eps.map (fun e => (tickCheckEndpoint sdnc freq now e).1),
    eps.flatMap (fun e => (tickCheckEndpoint sdnc freq now e).2))

/-- The candidate filter of the main-loop sweep (main.py lines 824-826):
not ignored, state `queued`, and hint different from "inactive". -/
def queuedEligible (e : Endpoint) : Bool :=
  !e.ignore && e.state = .queued && e.p_next_state ≠ some "inactive"

/-- The sort relation of `sorted(queued_endpoints, key=...)`
(main.py lines 831-832): ascending timestamp of the last history entry. -/
def tsLe (a b : Endpoint) : Prop := lastTs a ≤ lastTs b

instance : DecidableRel tsLe := fun a b => Nat.decLe (lastTs a) (lastTs b)

instance : IsTotal Endpoint tsLe := ⟨fun a b => Nat.le_total (lastTs a) (lastTs b)⟩

instance : IsTrans Endpoint tsLe := ⟨fun _ _ _ h1 h2 => Nat.le_trans h1 h2⟩

/-- The promotion applied to each selected queued endpoint by the
main-loop sweep (main.py lines 841-845): trigger the stored hint, clear
it, append one history entry. A `None` hint makes the Python call
`endpoint.trigger(None)` fail; the embedding maps it to the
forced-unknown outcome of an unrecognized event, which no claim
depends on. -/
def promoteQueued (now : Nat) (e : Endpoint) : Endpoint :=
  let st := e.state.trigger (e.p_next_state.getD "")
  { e with
      state := st
      p_next_state := none
      p_prev_states := e.p_prev_states ++ [(st, now)] }

/-- The selection of the main-loop sweep of `Monitor.process`
(main.py lines 824-841): the eligible queued endpoints, sorted ascending
by last-history timestamp, truncated to the investigation budget
`max(0, max_concurrent_reinvestigations - investigations)` where
`investigations` is recomputed from the registry. -/
def sweepChosen (maxConc : Nat) (eps : List Endpoint) : List Endpoint :=
  let queued := eps.filter queuedEligible
  let investigations := countInvestigations eps
  (queued.insertionSort tsLe).take (maxConc - investigations)

/-- Embedding of the main-loop investigation sweep of `Monitor.process`
(main.py lines 824-857): every chosen endpoint is promoted in place and
a mirror instruction is issued for it. -/
def process_investigation_sweep (maxConc now : Nat) (eps : List Endpoint) :
    List Endpoint × List Instr :=
  let chosenNames := (sweepChosen maxConc eps).map (fun e => e.name)
  (eps.map (fun e => if e.name ∈ chosenNames then promoteQueued now e else e),
    chosenNames.map (fun n => Instr.mirror n))

/-- The reinvestigation applied to one candidate inside
`trigger_reinvestigation` (main.py lines 92-98): `chosen.reinvestigate()`
followed by one history append and a mirror instruction. -/
def reinvestigate1 (now : Nat) (e : Endpoint) : Endpoint :=
  let st := e.state.trigger "reinvestigate"
  { e with state := st, p_prev_states := e.p_prev_states ++ [(st, now)] }

/-- Embedding of the loop body of `trigger_reinvestigation`
(main.py lines 88-108): `fuel` is the iteration count
`max_concurrent_reinvestigations - investigations` (empty for a negative
difference, exactly like the Python `range`), and `candidates` holds the
names of the candidate endpoints, popped from the END of the list as
`candidates.pop()` does. Iterations with an empty candidate list do
nothing. -/
def trigger_reinvestigation (now : Nat) :
    Nat → List Endpoint → List String → List Endpoint × List Instr
  | 0, eps, _ => (eps, [])
  | fuel + 1, eps, candidates =>
    match candidates.getLast? with
    | none => trigger_reinvestigation now fuel eps candidates
    | some chosen =>
      let eps2 := epUpdate eps chosen (reinvestigate1 now)
      let r := trigger_reinvestigation now fuel eps2 candidates.dropLast
      (r.1, Instr.mirror chosen :: r.2)

/-- Embedding of `schedule_job_reinvestigation` (main.py lines 84-122).
`inv` is the stored counter `self.s.investigations` (written only by the
main loop, so possibly stale here). Candidates are the queued endpoints
in registry order; when there are none, the known/abnormal endpoints in
an order produced by `random.shuffle`, which the embedding takes as the
`shuffle` argument. Nothing happens without an SDN controller. -/
def schedule_job_reinvestigation (maxConc inv now : Nat) (sdnc : Bool)
    (shuffle : List String → List String) (eps : List Endpoint) :
    List Endpoint × List Instr :=
  let candidates :=
    (eps.filter (fun e => e.state = .queued)).map (fun e => e.name)
  let candidates :=
    if candidates.isEmpty then
      shuffle
        ((eps.filter (fun e => e.state = .known || e.state = .abnormal)).map
          (fun e => e.name))
    else candidates
  if sdnc then trigger_reinvestigation now (maxConc - inv) eps candidates
  else (eps, [])

/-! ### Helper lemmas -/

theorem merge_nonIP_fields (o n : Machine) :
    (merge_machine_ip o n).mac = n.mac ∧
    (merge_machine_ip o n).segment = n.segment ∧
    (merge_machine_ip o n).port = n.port ∧
    (merge_machine_ip o n).tenant = n.tenant ∧
    (merge_machine_ip o n).vlan = n.vlan ∧
    (merge_machine_ip o n).active = n.active ∧
    (merge_machine_ip o n).name = n.name ∧
    (merge_machine_ip o n).ether_vendor = n.ether_vendor ∧
    (merge_machine_ip o n).controller_type = n.controller_type ∧
    (merge_machine_ip o n).controller = n.controller := by
  unfold merge_machine_ip
  cases hv4 : (!strTruthy n.ipv4 && strTruthy o.ipv4) <;>
    cases hv6 : (!strTruthy n.ipv6 && strTruthy o.ipv6) <;>
    simp [hv4, hv6]

theorem merge_ipv4_char (o n : Machine) :
    (merge_machine_ip o n).ipv4 =
      (if !strTruthy n.ipv4 && strTruthy o.ipv4 then o.ipv4 else n.ipv4) ∧
    (merge_machine_ip o n).ipv4_rdns =
      (if !strTruthy n.ipv4 && strTruthy o.ipv4 then
        (if o.ipv4_rdns.isSome then o.ipv4_rdns else n.ipv4_rdns)
       else n.ipv4_rdns) ∧
    (merge_machine_ip o n).ipv4_subnet =
      (if !strTruthy n.ipv4 && strTruthy o.ipv4 then
        (if o.ipv4_subnet.isSome then o.ipv4_subnet else n.ipv4_subnet)
       else n.ipv4_subnet) := by
  unfold merge_machine_ip
  cases hv4 : (!strTruthy n.ipv4 && strTruthy o.ipv4) <;>
    cases hv6 : (!strTruthy n.ipv6 && strTruthy o.ipv6) <;>
    simp [hv4, hv6]

theorem merge_ipv6_char (o n : Machine) :
    (merge_machine_ip o n).ipv6 =
      (if !strTruthy n.ipv6 && strTruthy o.ipv6 then o.ipv6 else n.ipv6) ∧
    (merge_machine_ip o n).ipv6_rdns =
      (if !strTruthy n.ipv6 && strTruthy o.ipv6 then
        (if o.ipv6_rdns.isSome then o.ipv6_rdns else n.ipv6_rdns)
       else n.ipv6_rdns) ∧
    (merge_machine_ip o n).ipv6_subnet =
      (if !strTruthy n.ipv6 && strTruthy o.ipv6 then
        (if o.ipv6_subnet.isSome then o.ipv6_subnet else n.ipv6_subnet)
       else n.ipv6_subnet) := by
  unfold merge_machine_ip
  cases hv4 : (!strTruthy n.ipv4 && strTruthy o.ipv4) <;>
    cases hv6 : (!strTruthy n.ipv6 && strTruthy o.ipv6) <;>
    simp [hv4, hv6]

theorem epUpdate_of_not_mem (eps : List Endpoint) (n : String)
    (f : Endpoint → Endpoint) (h : ∀ e ∈ eps, e.name ≠ n) :
    epUpdate eps n f = eps := by
  unfold epUpdate
  induction eps with
  | nil => rfl
  | cons e t ih =>
    simp only [List.map_cons, if_neg (h e (List.mem_cons_self e t)),
      List.cons.injEq, true_and]
    exact ih (fun x hx => h x (List.mem_cons_of_mem e hx))

theorem epUpdate_names (eps : List Endpoint) (n : String)
    (f : Endpoint → Endpoint) (hf : ∀ e, e.name = n → (f e).name = n) :
    (epUpdate eps n f).map (fun e => e.name) = eps.map (fun e => e.name) := by
  unfold epUpdate
  rw [List.map_map]
  apply List.map_congr_left
  intro e _
  by_cases he : e.name = n
  · simp [he, hf e he]
  · simp [he]

theorem epLookup_epUpdate (eps : List Endpoint) (n m : String)
    (f : Endpoint → Endpoint) (hf : ∀ e, e.name = n → (f e).name = n) :
    epLookup (epUpdate eps n f) m =
      if n = m then (epLookup eps m).map f else epLookup eps m := by
  unfold epLookup epUpdate
  induction eps with
  | nil => cases (instDecidableEqString n m) <;> simp_all
  | cons e t ih =>
    by_cases hen : e.name = n
    · by_cases hnm : n = m
      · subst hnm
        rw [List.map_cons, if_pos hen,
          List.find?_cons_of_pos _ (by simp [hf e hen]),
          List.find?_cons_of_pos _ (by simp [hen]), if_pos rfl]
        rfl
      · rw [List.map_cons, if_pos hen,
          List.find?_cons_of_neg _ (by simp [hf e hen, hnm]),
          List.find?_cons_of_neg _ (by simp [hen]; intro hc; exact hnm hc), ih,
          if_neg hnm]
    · by_cases hem : e.name = m
      · rw [List.map_cons, if_neg hen,
          List.find?_cons_of_pos _ (by simp [hem]),
          List.find?_cons_of_pos _ (by simp [hem])]
        rw [if_neg (fun hc => hen (by rw [hem, hc]))]
      · rw [List.map_cons, if_neg hen,
          List.find?_cons_of_neg _ (by simp [hem]),
          List.find?_cons_of_neg _ (by simp [hem]), ih]

theorem applyMachineDiff_name (ep : Endpoint) (m : Machine) (now : Nat) :
    (applyMachineDiff ep m now).1.name = ep.name := by
  unfold applyMachineDiff
  dsimp only
  split_ifs <;> rfl

theorem applyMachineDiff_data (ep : Endpoint) (m : Machine) (now : Nat) :
    (applyMachineDiff ep m now).1.endpoint_data = m := by
  unfold applyMachineDiff
  dsimp only
  split_ifs <;> rfl

theorem epLookup_name (eps : List Endpoint) (h : String) (ep : Endpoint)
    (hl : epLookup eps h = some ep) : ep.name = h := by
  unfold epLookup at hl
  have hp := List.find?_some hl
  simp only [decide_eq_true_eq] at hp
  exact hp

/-! ### C9 -/

/-- C9: `merge_machine_ip(old_machine, new_machine)` only assigns into
`new_machine` (the embedding therefore returns the final `new_machine`
and leaves `old_machine` untouched by construction), and the final
`new_machine` differs from the incoming one exactly by copying an IP
field together with its dependent fields from `old_machine` when the
incoming IP field is missing or empty and the old one is non-empty: all
non-IP fields are returned unchanged, and each IP and dependent field is
characterized by the merge condition. -/
theorem merge_machine_ip_frame (o n : Machine) :
    ((merge_machine_ip o n).mac = n.mac ∧
      (merge_machine_ip o n).segment = n.segment ∧
      (merge_machine_ip o n).port = n.port ∧
      (merge_machine_ip o n).tenant = n.tenant ∧
      (merge_machine_ip o n).vlan = n.vlan ∧
      (merge_machine_ip o n).active = n.active ∧
      (merge_machine_ip o n).name = n.name ∧
      (merge_machine_ip o n).ether_vendor = n.ether_vendor ∧
      (merge_machine_ip o n).controller_type = n.controller_type ∧
      (merge_machine_ip o n).controller = n.controller) ∧
    ((merge_machine_ip o n).ipv4 =
      (if !strTruthy n.ipv4 && strTruthy o.ipv4 then o.ipv4 else n.ipv4) ∧
      (merge_machine_ip o n).ipv4_rdns =
        (if !strTruthy n.ipv4 && strTruthy o.ipv4 then
          (if o.ipv4_rdns.isSome then o.ipv4_rdns else n.ipv4_rdns)
         else n.ipv4_rdns) ∧
      (merge_machine_ip o n).ipv4_subnet =
        (if !strTruthy n.ipv4 && strTruthy o.ipv4 then
          (if o.ipv4_subnet.isSome then o.ipv4_subnet else n.ipv4_subnet)
         else n.ipv4_subnet)) ∧
    ((merge_machine_ip o n).ipv6 =
      (if !strTruthy n.ipv6 && strTruthy o.ipv6 then o.ipv6 else n.ipv6) ∧
      (merge_machine_ip o n).ipv6_rdns =
        (if !strTruthy n.ipv6 && strTruthy o.ipv6 then
          (if o.ipv6_rdns.isSome then o.ipv6_rdns else n.ipv6_rdns)
         else n.ipv6_rdns) ∧
      (merge_machine_ip o n).ipv6_subnet =
        (if !strTruthy n.ipv6 && strTruthy o.ipv6 then
          (if o.ipv6_subnet.isSome then o.ipv6_subnet else n.ipv6_subnet)
         else n.ipv6_subnet)) :=
  ⟨merge_nonIP_fields o n, merge_ipv4_char o n, merge_ipv6_char o n⟩

/-! ### C10 -/

/-- C10: an observation that hashes to the name of an ignored endpoint
leaves the registry (hence that endpoint, with its stored observation,
state, hint and history) completely unchanged: the diff and active-flag
transition logic of `find_new_machines` is gated on `not ep.ignore`. -/
theorem ignored_endpoint_unchanged_by_observation
    (eps : List Endpoint) (machine : Machine) (h : String) (now : Nat)
    (ep : Endpoint) (hl : epLookup eps h = some ep) (hig : ep.ignore = true) :
    (find_new_machines_step eps machine h now).1 = eps ∧
    epLookup (find_new_machines_step eps machine h now).1 h = some ep := by
  have key : find_new_machines_step eps machine h now = (eps, [], false) := by
    unfold find_new_machines_step
    rw [hl]
    simp [hig]
  rw [key]
  exact ⟨rfl, hl⟩

/-- Sample observation used by the concrete witnesses below. -/
def mach0 : Machine :=
  { mac := "00:00:00:00:00:01"
    segment := "s1"
    port := "1"
    tenant := "t"
    vlan := "10"
    active := 1
    name := none
    ether_vendor := "v"
    controller_type := "none"
    controller := ""
    ipv4 := some "10.0.0.5"
    ipv4_rdns := some "h.example"
    ipv4_subnet := some "10.0.0.0/24"
    ipv6 := none
    ipv6_rdns := none
    ipv6_subnet := none }

/-- An observation for the same station seen on another segment, with no
IP information. -/
def mach1 : Machine :=
  { mach0 with
      segment := "s2"
      ipv4 := none
      ipv4_rdns := none
      ipv4_subnet := none }

/-- An ignored registry endpoint storing `mach0`. -/
def epIgn : Endpoint :=
  { name := "a"
    state := .known
    ignore := true
    p_next_state := none
    p_prev_states := [(.unknown, 1)]
    endpoint_data := mach0 }

theorem ignored_endpoint_unchanged_witness :
    epLookup [epIgn] "a" = some epIgn ∧ epIgn.ignore = true ∧
    ((find_new_machines_step [epIgn] mach1 "a" 5).1 = [epIgn] ∧
      epLookup (find_new_machines_step [epIgn] mach1 "a" 5).1 "a" = some epIgn) :=
  ⟨by decide, by decide,
    ignored_endpoint_unchanged_by_observation [epIgn] mach1 "a" 5 epIgn
      (by decide) (by decide)⟩

/-! ### C8 -/

/-- C8 counterexample: the claim states that the merge step overwrites
all non-preserved fields of the stored observation with the new
observation values for EVERY stored endpoint. For the ignored endpoint
`epIgn` (stored segment "s1") and the differing observation
`{ mach0 with segment := "s2" }`, the stored segment remains "s1": the
overwrite at main.py line 522 is gated on `not ep.ignore`. -/
theorem ignored_endpoint_not_overwritten :
    (epLookup (find_new_machines_step [epIgn]
        { mach0 with segment := "s2" } "a" 5).1 "a").map
      (fun e => e.endpoint_data.segment) = some "s1" ∧
    Machine.segment { mach0 with segment := "s2" } = "s2" := by
  decide

/-- C8 (amended): for every stored NON-IGNORED endpoint and every new
observation that hashes to the same name, the merge step preserves the
stored `ipv4` (respectively `ipv6`) together with its dependent rDNS and
subnet fields whenever the new observation lacks that IP value and the
stored observation has one, and overwrites all other fields of the
stored observation with the new observation values. (For ignored
endpoints the stored observation is left entirely unchanged, as the
counterexample shows.) -/
theorem merge_preserves_and_overwrites
    (eps : List Endpoint) (machine : Machine) (h : String) (now : Nat)
    (ep : Endpoint) (hl : epLookup eps h = some ep) (hig : ep.ignore = false) :
    ∃ ep2, epLookup (find_new_machines_step eps machine h now).1 h = some ep2 ∧
      ep2.endpoint_data = merge_machine_ip ep.endpoint_data machine ∧
      (strTruthy machine.ipv4 = false → strTruthy ep.endpoint_data.ipv4 = true →
        ep2.endpoint_data.ipv4 = ep.endpoint_data.ipv4 ∧
        (ep.endpoint_data.ipv4_rdns.isSome = true →
          ep2.endpoint_data.ipv4_rdns = ep.endpoint_data.ipv4_rdns) ∧
        (ep.endpoint_data.ipv4_subnet.isSome = true →
          ep2.endpoint_data.ipv4_subnet = ep.endpoint_data.ipv4_subnet)) ∧
      (strTruthy machine.ipv6 = false → strTruthy ep.endpoint_data.ipv6 = true →
        ep2.endpoint_data.ipv6 = ep.endpoint_data.ipv6 ∧
        (ep.endpoint_data.ipv6_rdns.isSome = true →
          ep2.endpoint_data.ipv6_rdns = ep.endpoint_data.ipv6_rdns) ∧
        (ep.endpoint_data.ipv6_subnet.isSome = true →
          ep2.endpoint_data.ipv6_subnet = ep.endpoint_data.ipv6_subnet)) ∧
      (ep2.endpoint_data.mac = machine.mac ∧
        ep2.endpoint_data.segment = machine.segment ∧
        ep2.endpoint_data.port = machine.port ∧
        ep2.endpoint_data.tenant = machine.tenant ∧
        ep2.endpoint_data.vlan = machine.vlan ∧
        ep2.endpoint_data.active = machine.active ∧
        ep2.endpoint_data.ether_vendor = machine.ether_vendor ∧
        ep2.endpoint_data.controller_type = machine.controller_type ∧
        ep2.endpoint_data.controller = machine.controller) ∧
      (strTruthy machine.ipv4 = true → ep2.endpoint_data.ipv4 = machine.ipv4) ∧
      (strTruthy machine.ipv6 = true → ep2.endpoint_data.ipv6 = machine.ipv6) := by
  have hname : ep.name = h := epLookup_name eps h ep hl
  have hmm : ∃ ep2,
      epLookup (find_new_machines_step eps machine h now).1 h = some ep2 ∧
      ep2.endpoint_data = merge_machine_ip ep.endpoint_data machine := by
    by_cases hd : ep.endpoint_data = merge_machine_ip ep.endpoint_data machine
    · refine ⟨ep, ?_, hd⟩
      have hcond : ¬(ep.endpoint_data ≠ merge_machine_ip ep.endpoint_data machine ∧
          ep.ignore = false) := by
        rintro ⟨hne, -⟩
        exact hne hd
      have hstep : find_new_machines_step eps machine h now = (eps, [], false) := by
        unfold find_new_machines_step
        rw [hl]
        simp only [if_neg hcond]
      rw [hstep]
      exact hl
    · refine ⟨(applyMachineDiff ep (merge_machine_ip ep.endpoint_data machine) now).1,
        ?_, applyMachineDiff_data ep _ now⟩
      have hstep : (find_new_machines_step eps machine h now).1 =
          epUpdate eps ep.name
            (fun _ => (applyMachineDiff ep
              (merge_machine_ip ep.endpoint_data machine) now).1) := by
        have hcond : ep.endpoint_data ≠ merge_machine_ip ep.endpoint_data machine ∧
            ep.ignore = false := ⟨hd, hig⟩
        unfold find_new_machines_step
        rw [hl]
        simp only [if_pos hcond]
      rw [hstep, hname,
        epLookup_epUpdate eps h h _
          (fun _ _ => by rw [applyMachineDiff_name, hname]), if_pos rfl, hl]
      rfl
  obtain ⟨ep2, hlook, hdata⟩ := hmm
  refine ⟨ep2, hlook, hdata, ?_, ?_, ?_, ?_, ?_⟩
  · intro hnew hold
    rw [hdata]
    refine ⟨?_, ?_, ?_⟩
    · rw [(merge_ipv4_char ep.endpoint_data machine).1]
      simp [hnew, hold]
    · intro hr
      rw [(merge_ipv4_char ep.endpoint_data machine).2.1]
      simp [hnew, hold, hr]
    · intro hr
      rw [(merge_ipv4_char ep.endpoint_data machine).2.2]
      simp [hnew, hold, hr]
  · intro hnew hold
    rw [hdata]
    refine ⟨?_, ?_, ?_⟩
    · rw [(merge_ipv6_char ep.endpoint_data machine).1]
      simp [hnew, hold]
    · intro hr
      rw [(merge_ipv6_char ep.endpoint_data machine).2.1]
      simp [hnew, hold, hr]
    · intro hr
      rw [(merge_ipv6_char ep.endpoint_data machine).2.2]
      simp [hnew, hold, hr]
  · rw [hdata]
    have hn := merge_nonIP_fields ep.endpoint_data machine
    exact ⟨hn.1, hn.2.1, hn.2.2.1, hn.2.2.2.1, hn.2.2.2.2.1, hn.2.2.2.2.2.1,
      hn.2.2.2.2.2.2.2.1, hn.2.2.2.2.2.2.2.2.1, hn.2.2.2.2.2.2.2.2.2⟩
  · intro hnew
    rw [hdata, (merge_ipv4_char ep.endpoint_data machine).1]
    simp [hnew]
  · intro hnew
    rw [hdata, (merge_ipv6_char ep.endpoint_data machine).1]
    simp [hnew]

/-- A non-ignored registry endpoint storing `mach0`. -/
def epOk : Endpoint :=
  { name := "b"
    state := .known
    ignore := false
    p_next_state := none
    p_prev_states := [(.unknown, 1)]
    endpoint_data := mach0 }

theorem merge_preserves_and_overwrites_witness :
    epLookup [epOk] "b" = some epOk ∧ epOk.ignore = false ∧
    (∃ ep2, epLookup (find_new_machines_step [epOk] mach1 "b" 5).1 "b" = some ep2 ∧
      ep2.endpoint_data = merge_machine_ip epOk.endpoint_data mach1 ∧
      (strTruthy mach1.ipv4 = false → strTruthy epOk.endpoint_data.ipv4 = true →
        ep2.endpoint_data.ipv4 = epOk.endpoint_data.ipv4 ∧
        (epOk.endpoint_data.ipv4_rdns.isSome = true →
          ep2.endpoint_data.ipv4_rdns = epOk.endpoint_data.ipv4_rdns) ∧
        (epOk.endpoint_data.ipv4_subnet.isSome = true →
          ep2.endpoint_data.ipv4_subnet = epOk.endpoint_data.ipv4_subnet)) ∧
      (strTruthy mach1.ipv6 = false → strTruthy epOk.endpoint_data.ipv6 = true →
        ep2.endpoint_data.ipv6 = epOk.endpoint_data.ipv6 ∧
        (epOk.endpoint_data.ipv6_rdns.isSome = true →
          ep2.endpoint_data.ipv6_rdns = epOk.endpoint_data.ipv6_rdns) ∧
        (epOk.endpoint_data.ipv6_subnet.isSome = true →
          ep2.endpoint_data.ipv6_subnet = epOk.endpoint_data.ipv6_subnet)) ∧
      (ep2.endpoint_data.mac = mach1.mac ∧
        ep2.endpoint_data.segment = mach1.segment ∧
        ep2.endpoint_data.port = mach1.port ∧
        ep2.endpoint_data.tenant = mach1.tenant ∧
        ep2.endpoint_data.vlan = mach1.vlan ∧
        ep2.endpoint_data.active = mach1.active ∧
        ep2.endpoint_data.ether_vendor = mach1.ether_vendor ∧
        ep2.endpoint_data.controller_type = mach1.controller_type ∧
        ep2.endpoint_data.controller = mach1.controller) ∧
      (strTruthy mach1.ipv4 = true → ep2.endpoint_data.ipv4 = mach1.ipv4) ∧
      (strTruthy mach1.ipv6 = true → ep2.endpoint_data.ipv6 = mach1.ipv6)) :=
  ⟨by decide, by decide,
    merge_preserves_and_overwrites [epOk] mach1 "b" 5 epOk (by decide) (by decide)⟩

theorem trigger_known (s : EpState) : s.trigger "known" = .known := rfl

theorem trigger_unknown (s : EpState) : s.trigger "unknown" = .unknown := rfl

theorem trigger_abnormal (s : EpState) : s.trigger "abnormal" = .abnormal := rfl

theorem trigger_inactive (s : EpState) : s.trigger "inactive" = .inactive := rfl

/-! ### C2 -/

/-- An ignored endpoint that was persisted in state `mirroring`. -/
def epMirIgn : Endpoint :=
  { name := "c"
    state := .mirroring
    ignore := true
    p_next_state := none
    p_prev_states := [(.queued, 1), (.mirroring, 2)]
    endpoint_data := mach0 }

/-- C2 counterexample: the claim states that EVERY endpoint loaded from
persistence is forced to `inactive` and that afterwards no loaded
endpoint is believed mirrored. `default_endpoints` skips ignored
endpoints (main.py line 172), so the ignored endpoint `epMirIgn` loaded
in state `mirroring` stays in state `mirroring`. -/
theorem ignored_endpoint_not_defaulted :
    ¬ (∀ e ∈ default_endpoints 9 [epMirIgn], e.state = EpState.inactive) ∧
    (∃ e ∈ default_endpoints 9 [epMirIgn], invState e.state = true) := by
  decide

/-- C2 (amended): on startup, every NON-IGNORED endpoint loaded from
persistence is forced to state `inactive`, with `p_next_state` set to
"mirror" if its stored state was `mirroring`, "reinvestigate" if
`reinvestigating`, "queue" if `queued`, and the stored state name itself
if `known` or `abnormal` (already-inactive endpoints and the remaining
states keep their previous hint); after this pass no non-ignored loaded
endpoint is in an investigation state. Ignored endpoints are skipped
entirely, as the counterexample shows. -/
theorem default_endpoints_force_inactive
    (now : Nat) (eps : List Endpoint) (e : Endpoint)
    (he : e ∈ eps) (hig : e.ignore = false) :
    defaultEndpoint now e ∈ default_endpoints now eps ∧
    (defaultEndpoint now e).state = EpState.inactive ∧
    invState (defaultEndpoint now e).state = false ∧
    (defaultEndpoint now e).p_next_state =
      (match e.state with
       | EpState.mirroring => some "mirror"
       | EpState.reinvestigating => some "reinvestigate"
       | EpState.queued => some "queue"
       | EpState.known => some "known"
       | EpState.abnormal => some "abnormal"
       | _ => e.p_next_state) := by
  have hstate : (defaultEndpoint now e).state = EpState.inactive ∧
      (defaultEndpoint now e).p_next_state =
        (match e.state with
         | EpState.mirroring => some "mirror"
         | EpState.reinvestigating => some "reinvestigate"
         | EpState.queued => some "queue"
         | EpState.known => some "known"
         | EpState.abnormal => some "abnormal"
         | _ => e.p_next_state) := by
    cases hs : e.state <;>
      simp [defaultEndpoint, hig, hs, trigger_inactive]
  refine ⟨List.mem_map_of_mem _ he, hstate.1, ?_, hstate.2⟩
  rw [hstate.1]
  rfl

/-- A non-ignored endpoint that was persisted in state `mirroring`. -/
def epMir2 : Endpoint :=
  { name := "d"
    state := .mirroring
    ignore := false
    p_next_state := none
    p_prev_states := [(.queued, 1), (.mirroring, 2)]
    endpoint_data := mach0 }

theorem default_endpoints_force_inactive_witness :
    epMir2 ∈ [epMir2] ∧ epMir2.ignore = false ∧
    (defaultEndpoint 9 epMir2 ∈ default_endpoints 9 [epMir2] ∧
      (defaultEndpoint 9 epMir2).state = EpState.inactive ∧
      invState (defaultEndpoint 9 epMir2).state = false ∧
      (defaultEndpoint 9 epMir2).p_next_state =
        (match epMir2.state with
         | EpState.mirroring => some "mirror"
         | EpState.reinvestigating => some "reinvestigate"
         | EpState.queued => some "queue"
         | EpState.known => some "known"
         | EpState.abnormal => some "abnormal"
         | _ => epMir2.p_next_state)) :=
  ⟨by decide, by decide,
    default_endpoints_force_inactive 9 [epMir2] epMir2 (by decide) (by decide)⟩

theorem invState_iff (s : EpState) :
    invState s = true ↔ s = .mirroring ∨ s = .reinvestigating := by
  cases s <;> decide

/-! ### C5 -/

/-- C5: on every periodic tick (with an SDN controller configured, the
only configuration in which investigation states are reachable through
the sweeps), each non-ignored endpoint in `mirroring` or
`reinvestigating` whose last history timestamp is more than
`2 * reinvestigation_frequency` seconds older than the current time is
unmirrored and driven to `unknown` with one appended history entry. -/
theorem stale_investigation_timeout
    (freq now : Nat) (eps : List Endpoint) (e : Endpoint)
    (he : e ∈ eps) (hig : e.ignore = false) (hinv : invState e.state = true)
    (hstale : lastTs e + 2 * freq < now) :
    (tickCheckEndpoint true freq now e).1.state = EpState.unknown ∧
    (tickCheckEndpoint true freq now e).1.p_prev_states =
      e.p_prev_states ++ [(EpState.unknown, now)] ∧
    (tickCheckEndpoint true freq now e).2 = [Instr.unmirror e.name] ∧
    (tickCheckEndpoint true freq now e).1 ∈ (tick_state_check true freq now eps).1 ∧
    Instr.unmirror e.name ∈ (tick_state_check true freq now eps).2 := by
  have hne : ¬ (e.state = EpState.unknown) := by
    rcases (invState_iff e.state).1 hinv with h | h <;> simp [h]
  have hcond : now - lastTs e > 2 * freq := by omega
  have h1 : tickCheckEndpoint true freq now e =
      ({ e with
          state := EpState.unknown
          p_prev_states := e.p_prev_states ++ [(EpState.unknown, now)] },
        [Instr.unmirror e.name]) := by
    unfold tickCheckEndpoint
    rw [if_neg (by simp [hig]), if_pos rfl, if_neg hne, if_pos hinv,
      if_pos hcond, trigger_unknown]
  refine ⟨by rw [h1], by rw [h1], by rw [h1], ?_, ?_⟩
  · exact List.mem_map_of_mem _ he
  · exact List.mem_flatMap.2 ⟨e, he, by rw [h1]; exact List.mem_singleton_self _⟩

/-- A non-ignored endpoint stuck in `mirroring` since time 2. -/
def epStale : Endpoint :=
  { name := "e1"
    state := .mirroring
    ignore := false
    p_next_state := none
    p_prev_states := [(.queued, 1), (.mirroring, 2)]
    endpoint_data := mach0 }

theorem stale_investigation_timeout_witness :
    epStale ∈ [epStale] ∧ epStale.ignore = false ∧
    invState epStale.state = true ∧ lastTs epStale + 2 * 3 < 10 ∧
    ((tickCheckEndpoint true 3 10 epStale).1.state = EpState.unknown ∧
      (tickCheckEndpoint true 3 10 epStale).1.p_prev_states =
        epStale.p_prev_states ++ [(EpState.unknown, 10)] ∧
      (tickCheckEndpoint true 3 10 epStale).2 = [Instr.unmirror epStale.name] ∧
      (tickCheckEndpoint true 3 10 epStale).1 ∈
        (tick_state_check true 3 10 [epStale]).1 ∧
      Instr.unmirror epStale.name ∈ (tick_state_check true 3 10 [epStale]).2) :=
  ⟨by decide, by decide, by decide, by decide,
    stale_investigation_timeout 3 10 [epStale] epStale (by decide) (by decide)
      (by decide) (by decide)⟩

/-! ### C3 -/

/-- C3: after a decider results batch is handled, every endpoint named
in the batch whose entry carries the `valid` field (the documented batch
shape) and that is not ignored is unmirrored if it was in `mirroring` or
`reinvestigating`, and then transitions to `known` when the entry is
valid with behavior "normal", to `abnormal` when valid with any other
behavior, and to `unknown` when not valid, appending exactly one history
entry. -/
theorem ml_results_drive_final_state
    (ml : DeciderObj) (now : Nat) (eps : List Endpoint) (e : Endpoint)
    (entry : DeciderEntry) (he : e ∈ eps)
    (hfound : objLookup ml e.name = some entry)
    (hv : entry.valid.isSome = true) (hig : e.ignore = false) :
    (invState e.state = true →
      (processMlEndpoint ml now e).2 = [Instr.unmirror e.name] ∧
      Instr.unmirror e.name ∈ (process_ml_returns ml now eps).2) ∧
    (processMlEndpoint ml now e).1.state =
      (if entry.valid.getD false then
        (if entry.behavior = some "normal" then EpState.known
         else EpState.abnormal)
       else EpState.unknown) ∧
    (processMlEndpoint ml now e).1.p_prev_states =
      e.p_prev_states ++ [((processMlEndpoint ml now e).1.state, now)] ∧
    (processMlEndpoint ml now e).1 ∈ (process_ml_returns ml now eps).1 := by
  have h1 : processMlEndpoint ml now e =
      ({ e with
          state :=
            (if entry.valid.getD false then
              (if entry.behavior = some "normal" then EpState.known
               else EpState.abnormal)
             else EpState.unknown)
          p_prev_states := e.p_prev_states ++
            [((if entry.valid.getD false then
                (if entry.behavior = some "normal" then EpState.known
                 else EpState.abnormal)
               else EpState.unknown), now)] },
        if invState e.state then [Instr.unmirror e.name] else []) := by
    unfold processMlEndpoint
    rw [hfound]
    simp only [if_pos (And.intro hv hig), trigger_known, trigger_abnormal,
      trigger_unknown]
  refine ⟨?_, by rw [h1], by rw [h1], ?_⟩
  · intro hinvB
    constructor
    · rw [h1]
      simp [hinvB]
    · refine List.mem_flatMap.2 ⟨e, he, ?_⟩
      rw [h1]
      simp [hinvB]
  · exact List.mem_map_of_mem _ he

/-- A non-ignored endpoint under investigation, named in the batch. -/
def epW : Endpoint :=
  { name := "w"
    state := .mirroring
    ignore := false
    p_next_state := some "mirror"
    p_prev_states := [(.queued, 1), (.mirroring, 2)]
    endpoint_data := mach0 }

/-- A valid decider entry reporting normal behavior. -/
def entryW : DeciderEntry :=
  { plugin := some "ncapture"
    valid := some true
    behavior := some "normal"
    source_mac := "00:00:00:00:00:01"
    source_ip := "10.0.0.5" }

theorem ml_results_drive_final_state_witness :
    epW ∈ [epW] ∧ objLookup [("w", entryW)] epW.name = some entryW ∧
    entryW.valid.isSome = true ∧ epW.ignore = false ∧
    ((invState epW.state = true →
      (processMlEndpoint [("w", entryW)] 9 epW).2 = [Instr.unmirror epW.name] ∧
      Instr.unmirror epW.name ∈
        (process_ml_returns [("w", entryW)] 9 [epW]).2) ∧
    (processMlEndpoint [("w", entryW)] 9 epW).1.state =
      (if entryW.valid.getD false then
        (if entryW.behavior = some "normal" then EpState.known
         else EpState.abnormal)
       else EpState.unknown) ∧
    (processMlEndpoint [("w", entryW)] 9 epW).1.p_prev_states =
      epW.p_prev_states ++
        [((processMlEndpoint [("w", entryW)] 9 epW).1.state, 9)] ∧
    (processMlEndpoint [("w", entryW)] 9 epW).1 ∈
      (process_ml_returns [("w", entryW)] 9 [epW]).1) :=
  ⟨by decide, by decide, by decide, by decide,
    ml_results_drive_final_state [("w", entryW)] 9 [epW] epW entryW
      (by decide) (by decide) (by decide) (by decide)⟩

deriving instance DecidableEq for Except

/-! ### C7 -/

/-- C7: the claim says a valid decider entry absent from the registry is
converted into a synthetic observation and reconciled into the registry.
The code instead crashes: with the batch entry "x1" (valid, with source
fields) absent from the registry `[epOk]`, the extras dict is non-empty,
and the loop `for device in extras:` iterates the dict KEYS, so its body
subscripts the string "x1" with "valid" and raises TypeError before any
synthetic machine is built. -/
theorem extras_loop_raises_type_error :
    extrasOf [epOk] [("x1", entryW)] ≠ [] ∧
    build_extra_machines (extrasOf [epOk] [("x1", entryW)]) =
      Except.error "TypeError: string indices must be integers" := by
  decide

/-! ### C4 -/

/-- A registry endpoint named "p" in state `known`. -/
def epP : Endpoint :=
  { name := "p"
    state := .known
    ignore := false
    p_next_state := none
    p_prev_states := [(.unknown, 1), (.known, 2)]
    endpoint_data := mach0 }

/-- A registry endpoint named "q" in state `known`. -/
def epQ : Endpoint :=
  { name := "q"
    state := .known
    ignore := false
    p_next_state := none
    p_prev_states := [(.unknown, 1), (.known, 3)]
    endpoint_data := mach0 }

/-- An invalid ncapture decider entry. -/
def entryBad : DeciderEntry :=
  { plugin := some "ncapture"
    valid := some false
    behavior := none
    source_mac := "00:00:00:00:00:02"
    source_ip := "10.0.0.9" }

/-- C4 counterexample: the claim says that EVERY entry with plugin
"ncapture" and a registered name drives its endpoint to `unknown`. In
the batch `[("p", entryBad), ("q", entryW)]` over the registry
`[epP, epQ]`, the first entry is invalid, so the loop breaks
(main.py line 684) before visiting the second entry: the endpoint "q"
stays `known` and gains no history entry, even though its entry is an
ncapture entry with a registered name. -/
theorem decider_break_skips_entries :
    ("q", entryW) ∈ [("p", entryBad), ("q", entryW)] ∧
    deciderEligible [epP, epQ] ("q", entryW) = true ∧
    (epLookup
        (format_rabbit_message_decider 9 [epP, epQ]
          [("p", entryBad), ("q", entryW)]).1 "q") = some epQ ∧
    epQ.state ≠ EpState.unknown := by
  decide

theorem epLookup_isSome_iff (eps : List Endpoint) (n : String) :
    (epLookup eps n).isSome = true ↔ n ∈ eps.map (fun e => e.name) := by
  unfold epLookup
  rw [List.find?_isSome]
  simp only [List.mem_map, decide_eq_true_eq]

theorem deciderEligible_congr (eps1 eps2 : List Endpoint)
    (hn : eps1.map (fun e => e.name) = eps2.map (fun e => e.name))
    (p : String × DeciderEntry) :
    deciderEligible eps1 p = deciderEligible eps2 p := by
  unfold deciderEligible
  have h1 : (epLookup eps1 p.1).isSome = (epLookup eps2 p.1).isSome := by
    by_cases h : (epLookup eps1 p.1).isSome = true
    · rw [h, Eq.symm ((epLookup_isSome_iff eps2 p.1).2
        (hn ▸ (epLookup_isSome_iff eps1 p.1).1 h))]
    · have h2 : ¬ (epLookup eps2 p.1).isSome = true := by
        intro hc
        exact h ((epLookup_isSome_iff eps1 p.1).2
          (hn ▸ (epLookup_isSome_iff eps2 p.1).1 hc))
      rw [Bool.eq_false_iff.2 h, Bool.eq_false_iff.2 h2]
  rw [h1]

theorem deciderTouch_name (now : Nat) (e : Endpoint) :
    (deciderTouch now e).name = e.name := rfl

theorem deciderLoop_names (now : Nat) (my_obj : DeciderObj) :
    ∀ (pending : DeciderObj) (eps : List Endpoint) (ret : DeciderObj),
    ((deciderLoop now my_obj pending eps ret).1).map (fun e => e.name) =
      eps.map (fun e => e.name)
  | [], eps, ret => rfl
  | p :: t, eps, ret => by
    unfold deciderLoop
    have hupd := epUpdate_names eps p.1 (deciderTouch now)
      (fun e he => by rw [deciderTouch_name]; exact he)
    by_cases hel : deciderEligible eps p = true
    · rw [if_pos hel]
      by_cases hv : p.2.valid.getD false = true
      · rw [if_pos hv, deciderLoop_names now my_obj t _ _, hupd]
      · rw [if_neg hv]
        exact hupd
    · rw [if_neg hel]
      exact deciderLoop_names now my_obj t eps ret

theorem deciderLoop_preserves_unknown (now : Nat) (my_obj : DeciderObj) :
    ∀ (pending : DeciderObj) (eps : List Endpoint) (ret : DeciderObj)
      (n : String) (e : Endpoint),
      epLookup eps n = some e → e.state = .unknown → e.p_next_state = none →
      ∃ e2 tl, epLookup (deciderLoop now my_obj pending eps ret).1 n = some e2 ∧
        e2.state = .unknown ∧ e2.p_next_state = none ∧
        e2.p_prev_states = e.p_prev_states ++ tl
  | [], eps, ret, n, e, hl, hs, hh => ⟨e, [], hl, hs, hh, by simp⟩
  | p :: t, eps, ret, n, e, hl, hs, hh => by
    unfold deciderLoop
    have hup := epLookup_epUpdate eps p.1 n (deciderTouch now)
      (fun x hx => by rw [deciderTouch_name]; exact hx)
    have htouch_hist : (deciderTouch now e).p_prev_states =
        e.p_prev_states ++ [(EpState.unknown, now)] := by
      simp [deciderTouch, trigger_unknown]
    by_cases hel : deciderEligible eps p = true
    · by_cases heq : p.1 = n
      · have hl2 : epLookup (epUpdate eps p.1 (deciderTouch now)) n =
            some (deciderTouch now e) := by
          rw [hup, if_pos heq, hl]
          rfl
        have hs2 : (deciderTouch now e).state = .unknown := by
          simp [deciderTouch, trigger_unknown]
        have hh2 : (deciderTouch now e).p_next_state = none := rfl
        by_cases hv : p.2.valid.getD false = true
        · rw [if_pos hel, if_pos hv]
          obtain ⟨e2, tl, h1, h2, h3, h4⟩ :=
            deciderLoop_preserves_unknown now my_obj t _ _ n
              (deciderTouch now e) hl2 hs2 hh2
          refine ⟨e2, (EpState.unknown, now) :: tl, h1, h2, h3, ?_⟩
          rw [h4, htouch_hist]
          simp
        · rw [if_pos hel, if_neg hv]
          exact ⟨deciderTouch now e, [(EpState.unknown, now)], hl2, hs2, hh2,
            htouch_hist⟩
      · have hl2 : epLookup (epUpdate eps p.1 (deciderTouch now)) n = some e := by
          rw [hup, if_neg heq]
          exact hl
        by_cases hv : p.2.valid.getD false = true
        · rw [if_pos hel, if_pos hv]
          exact deciderLoop_preserves_unknown now my_obj t _ _ n e hl2 hs hh
        · rw [if_pos hel, if_neg hv]
          exact ⟨e, [], hl2, hs, hh, by simp⟩
    · rw [if_neg hel]
      exact deciderLoop_preserves_unknown now my_obj t eps ret n e hl hs hh

theorem deciderLoop_sets_unknown_prefix (now : Nat) (my_obj : DeciderObj) :
    ∀ (pre : DeciderObj) (eps : List Endpoint) (ret : DeciderObj)
      (q : String × DeciderEntry) (rest : DeciderObj),
      (∀ r ∈ pre, deciderEligible eps r = true →
        r.2.valid.getD false = true) →
      deciderEligible eps q = true →
      ∃ e0 e2 tl, epLookup eps q.1 = some e0 ∧
        epLookup (deciderLoop now my_obj (pre ++ q :: rest) eps ret).1 q.1 =
          some e2 ∧
        e2.state = .unknown ∧ e2.p_next_state = none ∧
        tl ≠ [] ∧ e2.p_prev_states = e0.p_prev_states ++ tl
  | [], eps, ret, q, rest, _, helq => by
    rw [List.nil_append]
    unfold deciderLoop
    rw [if_pos helq]
    have hsome_q : (epLookup eps q.1).isSome = true := by
      unfold deciderEligible at helq
      exact (Bool.and_eq_true_iff.1 helq).1
    obtain ⟨e0, he0⟩ := Option.isSome_iff_exists.1 hsome_q
    have hl2 : epLookup (epUpdate eps q.1 (deciderTouch now)) q.1 =
        some (deciderTouch now e0) := by
      rw [epLookup_epUpdate eps q.1 q.1 (deciderTouch now)
        (fun x hx => by rw [deciderTouch_name]; exact hx), if_pos rfl, he0]
      rfl
    by_cases hv : q.2.valid.getD false = true
    · -- q is valid: the touch establishes the invariant, which the rest
      -- of the loop preserves regardless of later validity
      rw [if_pos hv]
      obtain ⟨e2, tl, h1, h2, h3, h4⟩ :=
        deciderLoop_preserves_unknown now my_obj rest _
          (dictUpdate ret my_obj) q.1 (deciderTouch now e0) hl2
          (by simp [deciderTouch, trigger_unknown]) rfl
      refine ⟨e0, e2, (EpState.unknown, now) :: tl, he0, h1, h2, h3,
        by simp, ?_⟩
      rw [h4]
      simp [deciderTouch, trigger_unknown]
    · -- q is the first falsy entry: it is touched and then the loop
      -- breaks immediately
      rw [if_neg hv]
      exact ⟨e0, deciderTouch now e0, [(EpState.unknown, now)], he0, hl2,
        by simp [deciderTouch, trigger_unknown], rfl, by simp,
        by simp [deciderTouch, trigger_unknown]⟩
  | p :: pre2, eps, ret, q, rest, hpre, helq => by
    rw [List.cons_append]
    unfold deciderLoop
    have hup := epLookup_epUpdate eps p.1 q.1 (deciderTouch now)
      (fun x hx => by rw [deciderTouch_name]; exact hx)
    have hnames := epUpdate_names eps p.1 (deciderTouch now)
      (fun x hx => by rw [deciderTouch_name]; exact hx)
    by_cases hel : deciderEligible eps p = true
    · have hv : p.2.valid.getD false = true :=
        hpre p (List.mem_cons_self p pre2) hel
      rw [if_pos hel, if_pos hv]
      have hpre2 : ∀ r ∈ pre2,
          deciderEligible (epUpdate eps p.1 (deciderTouch now)) r = true →
          r.2.valid.getD false = true := by
        intro r hr helr
        exact hpre r (List.mem_cons_of_mem p hr)
          (by rw [deciderEligible_congr eps _ hnames.symm r]; exact helr)
      have helq2 : deciderEligible (epUpdate eps p.1 (deciderTouch now)) q
          = true := by
        rw [deciderEligible_congr _ eps hnames q]
        exact helq
      have hsome_p : (epLookup eps p.1).isSome = true := by
        unfold deciderEligible at hel
        exact (Bool.and_eq_true_iff.1 hel).1
      obtain ⟨ep0, hep0⟩ := Option.isSome_iff_exists.1 hsome_p
      obtain ⟨e0, e2, tl, h0, h1, h2, h3, h4, h5⟩ :=
        deciderLoop_sets_unknown_prefix now my_obj pre2 _
          (dictUpdate ret my_obj) q rest hpre2 helq2
      by_cases heq : p.1 = q.1
      · -- the head touched the same endpoint before the target entry
        have he0 : e0 = deciderTouch now ep0 := by
          rw [hup, if_pos heq, ← heq, hep0] at h0
          simp only [Option.map_some'] at h0
          injection h0 with h
          exact h.symm
        refine ⟨ep0, e2, (EpState.unknown, now) :: tl,
          by rw [heq] at hep0; exact hep0, h1, h2, h3, by simp, ?_⟩
        rw [h5, he0]
        simp [deciderTouch, trigger_unknown]
      · have he0 : epLookup eps q.1 = some e0 := by
          rw [hup, if_neg heq] at h0
          exact h0
        exact ⟨e0, e2, tl, he0, h1, h2, h3, h4, h5⟩
    · rw [if_neg hel]
      exact deciderLoop_sets_unknown_prefix now my_obj pre2 eps ret q rest
        (fun r hr => hpre r (List.mem_cons_of_mem p hr)) helq

theorem deciderLoop_invalid_empty (now : Nat) (my_obj : DeciderObj) :
    ∀ (pending : DeciderObj) (eps : List Endpoint) (ret : DeciderObj),
      (∃ r ∈ pending, deciderEligible eps r = true ∧
        r.2.valid.getD false = false) →
      (deciderLoop now my_obj pending eps ret).2 = []
  | [], _, _, h => absurd h (by simp)
  | p :: t, eps, ret, h => by
    unfold deciderLoop
    have hnames := epUpdate_names eps p.1 (deciderTouch now)
      (fun x hx => by rw [deciderTouch_name]; exact hx)
    by_cases hel : deciderEligible eps p = true
    · by_cases hv : p.2.valid.getD false = true
      · rw [if_pos hel, if_pos hv]
        obtain ⟨r, hr, hre, hrv⟩ := h
        have hrt : r ∈ t := by
          rcases List.mem_cons.1 hr with h1 | h1
          · rw [h1, hv] at hrv
            cases hrv
          · exact h1
        exact deciderLoop_invalid_empty now my_obj t _ _
          ⟨r, hrt, by rw [deciderEligible_congr _ eps hnames r]; exact hre, hrv⟩
      · rw [if_pos hel, if_neg hv]
    · rw [if_neg hel]
      obtain ⟨r, hr, hre, hrv⟩ := h
      have hrt : r ∈ t := by
        rcases List.mem_cons.1 hr with h1 | h1
        · exact absurd (h1 ▸ hre) hel
        · exact h1
      exact deciderLoop_invalid_empty now my_obj t eps ret ⟨r, hrt, hre, hrv⟩

theorem dictUpdate_nil_left (u : DeciderObj) : dictUpdate [] u = u := by
  simp [dictUpdate]

theorem find?_self_key (u : DeciderObj)
    (hnd : (u.map (fun r => r.1)).Nodup) :
    ∀ p ∈ u, u.find? (fun q => q.1 = p.1) = some p := by
  induction u with
  | nil => intro p hp; cases hp
  | cons x t ih =>
    have hx : x.1 ∉ t.map (fun r => r.1) := by
      rw [List.map_cons] at hnd
      exact (List.nodup_cons.1 hnd).1
    intro p hp
    rcases List.mem_cons.1 hp with h1 | h1
    · rw [h1]
      exact List.find?_cons_of_pos _ (by simp)
    · have hne : x.1 ≠ p.1 := by
        intro hc
        exact hx (hc ▸ List.mem_map.2 ⟨p, h1, rfl⟩)
      rw [List.find?_cons_of_neg _ (by simp [hne])]
      exact ih (by rw [List.map_cons] at hnd; exact (List.nodup_cons.1 hnd).2) p h1

theorem dictUpdate_self (u : DeciderObj)
    (hnd : (u.map (fun r => r.1)).Nodup) : dictUpdate u u = u := by
  unfold dictUpdate
  have h1 : u.map (fun p =>
      match u.find? (fun q => q.1 = p.1) with
      | some q => q
      | none => p) = u := by
    have := List.map_congr_left (l := u)
      (f := fun p => match u.find? (fun q => q.1 = p.1) with
        | some q => q | none => p) (g := id)
      (fun p hp => by
        show (match u.find? (fun q => q.1 = p.1) with
          | some q => q | none => p) = p
        rw [find?_self_key u hnd p hp])
    rw [this, List.map_id]
  have h2 : u.filter (fun q => (u.find? (fun p => p.1 = q.1)).isNone) = [] := by
    rw [List.filter_eq_nil_iff]
    intro q hq
    rw [find?_self_key u hnd q hq]
    simp
  rw [h1, h2, List.append_nil]

theorem deciderLoop_ret_keeps (now : Nat) (my_obj : DeciderObj)
    (hnd : (my_obj.map (fun r => r.1)).Nodup) :
    ∀ (pending : DeciderObj) (eps : List Endpoint),
      (∀ r ∈ pending, deciderEligible eps r = true →
        r.2.valid.getD false = true) →
      (deciderLoop now my_obj pending eps my_obj).2 = my_obj
  | [], _, _ => rfl
  | p :: t, eps, hall => by
    unfold deciderLoop
    have hnames := epUpdate_names eps p.1 (deciderTouch now)
      (fun x hx => by rw [deciderTouch_name]; exact hx)
    by_cases hel : deciderEligible eps p = true
    · have hv := hall p (List.mem_cons_self p t) hel
      rw [if_pos hel, if_pos hv, dictUpdate_self my_obj hnd]
      exact deciderLoop_ret_keeps now my_obj hnd t _
        (fun r hr helr => hall r (List.mem_cons_of_mem p hr)
          (by rw [deciderEligible_congr eps _ hnames.symm r]; exact helr))
    · rw [if_neg hel]
      exact deciderLoop_ret_keeps now my_obj hnd t eps
        (fun r hr => hall r (List.mem_cons_of_mem p hr))

theorem deciderLoop_ret_init (now : Nat) (my_obj : DeciderObj)
    (hnd : (my_obj.map (fun r => r.1)).Nodup) :
    ∀ (pending : DeciderObj) (eps : List Endpoint),
      (∀ r ∈ pending, deciderEligible eps r = true →
        r.2.valid.getD false = true) →
      (∃ r ∈ pending, deciderEligible eps r = true) →
      (deciderLoop now my_obj pending eps []).2 = my_obj
  | [], _, _, hex => absurd hex (by simp)
  | p :: t, eps, hall, hex => by
    unfold deciderLoop
    have hnames := epUpdate_names eps p.1 (deciderTouch now)
      (fun x hx => by rw [deciderTouch_name]; exact hx)
    by_cases hel : deciderEligible eps p = true
    · have hv := hall p (List.mem_cons_self p t) hel
      rw [if_pos hel, if_pos hv, dictUpdate_nil_left]
      exact deciderLoop_ret_keeps now my_obj hnd t _
        (fun r hr helr => hall r (List.mem_cons_of_mem p hr)
          (by rw [deciderEligible_congr eps _ hnames.symm r]; exact helr))
    · rw [if_neg hel]
      obtain ⟨r, hr, hre⟩ := hex
      have hrt : r ∈ t := by
        rcases List.mem_cons.1 hr with h1 | h1
        · exact absurd (h1 ▸ hre) hel
        · exact h1
      exact deciderLoop_ret_init now my_obj hnd t eps
        (fun r2 hr2 => hall r2 (List.mem_cons_of_mem p hr2)) ⟨r, hrt, hre⟩

/-- C4 (amended): the decider handler walks the message object in
order. Every entry with plugin "ncapture" and a registered name whose
eligible predecessors are all valid — that is, every such entry up to
and including the FIRST one whose `valid` is falsy — transitions its
endpoint to `unknown`, clears its hint, and appends history (first
conjunct, quantified over every decomposition `pre ++ q :: rest` of the
message with all eligible entries of `pre` valid, with no validity
assumption on `q` itself); when some ncapture/registered entry is
invalid, the handler stops there and yields the empty batch (second
conjunct); when every such entry is valid and the message has distinct
keys and at least one such entry, the whole message object is the
pending batch (third conjunct). -/
theorem decider_transitions_and_discard
    (now : Nat) (eps : List Endpoint) (my_obj : DeciderObj) :
    (∀ (pre : DeciderObj) (q : String × DeciderEntry) (rest : DeciderObj),
        my_obj = pre ++ q :: rest →
        (∀ r ∈ pre, deciderEligible eps r = true →
          r.2.valid.getD false = true) →
        deciderEligible eps q = true →
        ∃ e0 e2 tl, epLookup eps q.1 = some e0 ∧
          epLookup (format_rabbit_message_decider now eps my_obj).1 q.1 =
            some e2 ∧
          e2.state = .unknown ∧ e2.p_next_state = none ∧
          tl ≠ [] ∧ e2.p_prev_states = e0.p_prev_states ++ tl) ∧
    ((∃ r ∈ my_obj, deciderEligible eps r = true ∧
        r.2.valid.getD false = false) →
      (format_rabbit_message_decider now eps my_obj).2 = []) ∧
    ((my_obj.map (fun r => r.1)).Nodup →
      (∀ r ∈ my_obj, deciderEligible eps r = true →
        r.2.valid.getD false = true) →
      (∃ r ∈ my_obj, deciderEligible eps r = true) →
      (format_rabbit_message_decider now eps my_obj).2 = my_obj) := by
  refine ⟨?_, ?_, ?_⟩
  · intro pre q rest hdec hpre helq
    unfold format_rabbit_message_decider
    rw [hdec]
    exact deciderLoop_sets_unknown_prefix now (pre ++ q :: rest) pre eps []
      q rest hpre helq
  · intro hex
    exact deciderLoop_invalid_empty now my_obj my_obj eps [] hex
  · intro hnd hall hex
    exact deciderLoop_ret_init now my_obj hnd my_obj eps hall hex

theorem decider_transitions_and_discard_witness :
    (∃ e0 e2 tl, epLookup [epP, epQ] "p" = some e0 ∧
      epLookup (format_rabbit_message_decider 9 [epP, epQ]
          [("q", entryW), ("p", entryBad)]).1 "p" = some e2 ∧
      e2.state = .unknown ∧ e2.p_next_state = none ∧
      tl ≠ [] ∧ e2.p_prev_states = e0.p_prev_states ++ tl) ∧
    (format_rabbit_message_decider 9 [epP, epQ]
        [("q", entryW), ("p", entryBad)]).2 = [] ∧
    (format_rabbit_message_decider 9 [epW] [("w", entryW)]).2 = [("w", entryW)] :=
  ⟨(decider_transitions_and_discard 9 [epP, epQ]
        [("q", entryW), ("p", entryBad)]).1
      [("q", entryW)] ("p", entryBad) [] rfl (by decide) (by decide),
    (decider_transitions_and_discard 9 [epP, epQ]
        [("q", entryW), ("p", entryBad)]).2.1 (by decide),
    (decider_transitions_and_discard 9 [epW] [("w", entryW)]).2.2
      (by decide) (by decide) (by decide)⟩

/-! ### C6 -/

/-- A queued endpoint whose last history entry is at time 3. -/
def q1ex : Endpoint :=
  { name := "q1"
    state := .queued
    ignore := false
    p_next_state := some "mirror"
    p_prev_states := [(.unknown, 1), (.queued, 3)]
    endpoint_data := mach0 }

/-- A queued endpoint whose last history entry is at time 5. -/
def q2ex : Endpoint :=
  { name := "q2"
    state := .queued
    ignore := false
    p_next_state := some "mirror"
    p_prev_states := [(.unknown, 2), (.queued, 5)]
    endpoint_data := mach0 }

/-- C6 counterexample: the claim says queued candidates are taken in
ascending order of last-history timestamp on EVERY scheduling
opportunity, including the periodic reinvestigation sweep. With budget
1 (max_concurrent_reinvestigations = 1, investigations = 0) over the
registry [q1ex (ts 3), q2ex (ts 5)], `schedule_job_reinvestigation`
pops candidates from the END of the unsorted registry-order list
(main.py line 92), so it triggers q2 (the LATER timestamp) and leaves
q1 queued. -/
theorem reinvestigation_job_not_fifo :
    lastTs q1ex < lastTs q2ex ∧
    (epLookup (schedule_job_reinvestigation 1 0 9 true id [q1ex, q2ex]).1
        "q1").map (fun e => e.state) = some EpState.queued ∧
    (epLookup (schedule_job_reinvestigation 1 0 9 true id [q1ex, q2ex]).1
        "q2").map (fun e => e.state) = some EpState.reinvestigating := by
  decide

theorem trigger_reinvestigation_length (now : Nat) :
    ∀ (fuel : Nat) (eps : List Endpoint) (cands : List String),
      (trigger_reinvestigation now fuel eps cands).2.length ≤ fuel
  | 0, _, _ => Nat.le_refl 0
  | fuel + 1, eps, cands => by
    unfold trigger_reinvestigation
    cases hc : cands.getLast? with
    | none =>
      exact Nat.le_succ_of_le (trigger_reinvestigation_length now fuel eps cands)
    | some chosen =>
      simpa using Nat.succ_le_succ (trigger_reinvestigation_length now fuel _ _)

/-- C6 (amended): the FIFO ordering holds for the main-loop sweep: among
the eligible queued endpoints, every endpoint that gets a mirror
instruction has a last-history timestamp no larger than that of every
eligible endpoint that does not, and at most
`max(0, max_concurrent_reinvestigations - investigations)` endpoints are
triggered. The periodic reinvestigation job also respects the budget
bound, but selects its candidates from the END of the registry-order
candidate list without sorting, so the FIFO ordering does NOT hold
there (see the counterexample). -/
theorem sweep_order_and_budget
    (maxConc inv now : Nat) (sdnc : Bool)
    (shuffle : List String → List String) (eps : List Endpoint)
    (hnd : (eps.map (fun e => e.name)).Nodup) :
    (∀ e, e ∈ eps → queuedEligible e = true →
      Instr.mirror e.name ∉ (process_investigation_sweep maxConc now eps).2 →
      ∀ e2, e2 ∈ eps →
        Instr.mirror e2.name ∈ (process_investigation_sweep maxConc now eps).2 →
        lastTs e2 ≤ lastTs e) ∧
    (process_investigation_sweep maxConc now eps).2.length ≤
      maxConc - countInvestigations eps ∧
    (schedule_job_reinvestigation maxConc inv now sdnc shuffle eps).2.length ≤
      maxConc - inv := by
  refine ⟨?_, ?_, ?_⟩
  · intro e he helig hnot e2 he2 hin
    have hinstr : (process_investigation_sweep maxConc now eps).2 =
        ((sweepChosen maxConc eps).map (fun e => e.name)).map
          (fun n => Instr.mirror n) := rfl
    have hmem_chosen : ∀ x, Instr.mirror x ∈
        (process_investigation_sweep maxConc now eps).2 ↔
        x ∈ (sweepChosen maxConc eps).map (fun e => e.name) := by
      intro x
      rw [hinstr]
      constructor
      · intro hx
        obtain ⟨n, hn, heq⟩ := List.mem_map.1 hx
        cases heq
        exact hn
      · intro hx
        exact List.mem_map.2 ⟨x, hx, rfl⟩
    have hsorted := List.sorted_insertionSort tsLe (eps.filter queuedEligible)
    have hsplit := List.take_append_drop (maxConc - countInvestigations eps)
      ((eps.filter queuedEligible).insertionSort tsLe)
    -- e is an eligible endpoint that was not chosen: it lies in the
    -- dropped suffix of the sorted candidate list
    have hesort : e ∈ (eps.filter queuedEligible).insertionSort tsLe :=
      (List.mem_insertionSort tsLe).2 (List.mem_filter.2 ⟨he, helig⟩)
    have hedrop : e ∈ ((eps.filter queuedEligible).insertionSort tsLe).drop
        (maxConc - countInvestigations eps) := by
      have := (List.mem_append.1 (hsplit ▸ hesort))
      rcases this with h1 | h1
      · exact absurd ((hmem_chosen e.name).2 (List.mem_map.2 ⟨e, h1, rfl⟩)) hnot
      · exact h1
    -- e2 got a mirror instruction: it is one of the chosen endpoints
    obtain ⟨c, hc, hcname⟩ := List.mem_map.1 ((hmem_chosen e2.name).1 hin)
    have hceps : c ∈ eps := by
      have : c ∈ eps.filter queuedEligible :=
        (List.mem_insertionSort tsLe).1 (List.mem_of_mem_take hc)
      exact (List.mem_filter.1 this).1
    have hce2 : c = e2 := List.inj_on_of_nodup_map hnd hceps he2 hcname
    have hpair := (List.pairwise_append.1 (hsplit ▸ hsorted)).2.2
    have := hpair c hc e hedrop
    rw [hce2] at this
    exact this
  · have : (process_investigation_sweep maxConc now eps).2.length =
        (sweepChosen maxConc eps).length := by
      simp [process_investigation_sweep]
    rw [this]
    unfold sweepChosen
    simp [List.length_take]
  · unfold schedule_job_reinvestigation
    by_cases hs : sdnc = true
    · rw [if_pos hs]
      exact trigger_reinvestigation_length now _ _ _
    · rw [if_neg hs]
      exact Nat.zero_le _

theorem sweep_order_and_budget_witness :
    ([q1ex, q2ex].map (fun e => e.name)).Nodup ∧
    lastTs q1ex ≤ lastTs q2ex ∧
    (process_investigation_sweep 1 9 [q1ex, q2ex]).2.length ≤
      1 - countInvestigations [q1ex, q2ex] ∧
    (schedule_job_reinvestigation 1 0 9 true id [q1ex, q2ex]).2.length ≤
      1 - 0 :=
  ⟨by decide,
    (sweep_order_and_budget 1 0 9 true id [q1ex, q2ex] (by decide)).1
      q2ex (by decide) (by decide) (by decide) q1ex (by decide) (by decide),
    (sweep_order_and_budget 1 0 9 true id [q1ex, q2ex] (by decide)).2.1,
    (sweep_order_and_budget 1 0 9 true id [q1ex, q2ex] (by decide)).2.2⟩

/-! ### C1 -/

/-- A non-ignored endpoint currently being mirrored. -/
def emx : Endpoint :=
  { name := "m1"
    state := .mirroring
    ignore := false
    p_next_state := none
    p_prev_states := [(.queued, 1), (.mirroring, 2)]
    endpoint_data := mach0 }

/-- A non-ignored queued endpoint. -/
def eqx : Endpoint :=
  { name := "m2"
    state := .queued
    ignore := false
    p_next_state := some "mirror"
    p_prev_states := [(.unknown, 1), (.queued, 3)]
    endpoint_data := mach0 }

/-- C1 counterexample: with `max_concurrent_reinvestigations = 1` and
the registry `[emx (mirroring), eqx (queued)]` already at the bound, the
`poseidon.action.change` handler applied to `[["m2", "mirror"]]` forces
the queued endpoint into `mirroring` without consulting the budget
(main.py lines 696-723 contain no budget check), leaving two endpoints
in investigation states. -/
theorem action_change_violates_budget :
    countInvestigations [emx, eqx] ≤ 1 ∧
    ¬ (countInvestigations
        (format_rabbit_message_change 9 [emx, eqx] [("m2", "mirror")]).1 ≤ 1) := by
  decide

theorem countInv_selective_map (eps : List Endpoint) (sel : List String)
    (g : Endpoint → Endpoint) :
    countInvestigations (eps.map (fun e => if e.name ∈ sel then g e else e)) ≤
      countInvestigations eps + eps.countP (fun e => decide (e.name ∈ sel)) := by
  induction eps with
  | nil => simp [countInvestigations]
  | cons e t ih =>
    unfold countInvestigations at ih ⊢
    rw [List.map_cons, List.countP_cons, List.countP_cons, List.countP_cons]
    by_cases hs : e.name ∈ sel
    · simp only [if_pos hs, decide_eq_true hs, if_true]
      cases hg : invState (g e).state <;> cases he : invState e.state <;>
        simp only [hg, he, eq_self_iff_true, if_true, Bool.false_eq_true,
          if_false] <;> omega
    · simp only [if_neg hs, decide_eq_false hs, Bool.false_eq_true, if_false]
      omega

theorem countP_name_mem_le (eps : List Endpoint) (sel : List String)
    (hnd : (eps.map (fun e => e.name)).Nodup) :
    eps.countP (fun e => decide (e.name ∈ sel)) ≤ sel.length := by
  have h1 : eps.countP (fun e => decide (e.name ∈ sel)) =
      ((eps.map (fun e => e.name)).filter (fun n => decide (n ∈ sel))).length := by
    rw [← List.countP_eq_length_filter, List.countP_map]
    rfl
  rw [h1]
  exact (List.subperm_of_subset (hnd.filter _)
    (fun x hx => of_decide_eq_true (List.mem_filter.1 hx).2)).length_le

theorem countInv_epUpdate_le (eps : List Endpoint) (n : String)
    (g : Endpoint → Endpoint) (hnd : (eps.map (fun e => e.name)).Nodup) :
    countInvestigations (epUpdate eps n g) ≤ countInvestigations eps + 1 := by
  induction eps with
  | nil => simp [countInvestigations, epUpdate]
  | cons e t ih =>
    have hnd2 : (t.map (fun e => e.name)).Nodup := by
      rw [List.map_cons] at hnd
      exact (List.nodup_cons.1 hnd).2
    have hx : e.name ∉ t.map (fun e => e.name) := by
      rw [List.map_cons] at hnd
      exact (List.nodup_cons.1 hnd).1
    unfold countInvestigations epUpdate at ih ⊢
    rw [List.map_cons, List.countP_cons, List.countP_cons]
    by_cases he : e.name = n
    · have ht : t.map (fun x => if x.name = n then g x else x) = t := by
        have := epUpdate_of_not_mem t n g
          (fun x hx2 hc => hx (by rw [he, ← hc]; exact List.mem_map.2 ⟨x, hx2, rfl⟩))
        unfold epUpdate at this
        exact this
      rw [if_pos he, ht]
      cases hg : invState (g e).state <;> cases hes : invState e.state <;>
        simp only [hg, hes, eq_self_iff_true, if_true, Bool.false_eq_true,
          if_false] <;> omega
    · rw [if_neg he]
      have := ih hnd2
      cases hes : invState e.state <;>
        simp only [hes, eq_self_iff_true, if_true, Bool.false_eq_true,
          if_false] <;> omega

theorem reinvestigate1_name (now : Nat) (e : Endpoint) :
    (reinvestigate1 now e).name = e.name := rfl

theorem trigger_reinvestigation_count (now : Nat) :
    ∀ (fuel : Nat) (eps : List Endpoint) (cands : List String),
      (eps.map (fun e => e.name)).Nodup →
      countInvestigations (trigger_reinvestigation now fuel eps cands).1 ≤
        countInvestigations eps + fuel
  | 0, eps, cands, _ => by simp [trigger_reinvestigation]
  | fuel + 1, eps, cands, hnd => by
    unfold trigger_reinvestigation
    cases hc : cands.getLast? with
    | none =>
      exact le_trans (trigger_reinvestigation_count now fuel eps cands hnd)
        (by omega)
    | some chosen =>
      have hnames := epUpdate_names eps chosen (reinvestigate1 now)
        (fun x hx => by rw [reinvestigate1_name]; exact hx)
      have hnd2 : ((epUpdate eps chosen (reinvestigate1 now)).map
          (fun e => e.name)).Nodup := by
        rw [hnames]
        exact hnd
      have h1 := countInv_epUpdate_le eps chosen (reinvestigate1 now) hnd
      have h2 := trigger_reinvestigation_count now fuel
        (epUpdate eps chosen (reinvestigate1 now)) cands.dropLast hnd2
      dsimp only
      omega

/-- C1 (amended): the investigation bound
`count(state in {mirroring, reinvestigating}) <= max_concurrent_reinvestigations`
is preserved by the main-loop budget enforcement (which recomputes
`investigations` from the registry), and by the periodic reinvestigation
job PROVIDED its stored `investigations` counter is at least the current
investigation count (the counter is written only by the main loop, before
its own promotions, so it can be stale). It is NOT preserved by a forced
mirror/reinvestigate transition delivered via a `poseidon.action.change`
message, which performs no budget check (see the counterexample). -/
theorem budget_preserved_by_sweeps
    (maxConc inv now : Nat) (sdnc : Bool)
    (shuffle : List String → List String) (eps : List Endpoint)
    (hnd : (eps.map (fun e => e.name)).Nodup)
    (hbound : countInvestigations eps ≤ maxConc)
    (hinv : countInvestigations eps ≤ inv) :
    countInvestigations (process_investigation_sweep maxConc now eps).1 ≤
      maxConc ∧
    countInvestigations
      (schedule_job_reinvestigation maxConc inv now sdnc shuffle eps).1 ≤
      maxConc := by
  constructor
  · have h1 := countInv_selective_map eps
      ((sweepChosen maxConc eps).map (fun e => e.name)) (promoteQueued now)
    have h2 := countP_name_mem_le eps
      ((sweepChosen maxConc eps).map (fun e => e.name)) hnd
    have h3 : ((sweepChosen maxConc eps).map (fun e => e.name)).length ≤
        maxConc - countInvestigations eps := by
      rw [List.length_map]
      unfold sweepChosen
      simp [List.length_take]
    have h4 : (process_investigation_sweep maxConc now eps).1 =
        eps.map (fun e =>
          if e.name ∈ (sweepChosen maxConc eps).map (fun e => e.name) then
            promoteQueued now e
          else e) := rfl
    rw [h4]
    omega
  · unfold schedule_job_reinvestigation
    by_cases hs : sdnc = true
    · rw [if_pos hs]
      have := trigger_reinvestigation_count now (maxConc - inv) eps
        (if ((eps.filter (fun e => e.state = .queued)).map
            (fun e => e.name)).isEmpty = true then
          shuffle ((eps.filter
            (fun e => e.state = .known || e.state = .abnormal)).map
              (fun e => e.name))
        else (eps.filter (fun e => e.state = .queued)).map (fun e => e.name))
        hnd
      omega
    · rw [if_neg hs]
      exact hbound

theorem budget_preserved_by_sweeps_witness :
    ([emx, eqx].map (fun e => e.name)).Nodup ∧
    countInvestigations [emx, eqx] ≤ 2 ∧
    countInvestigations [emx, eqx] ≤ 1 ∧
    (countInvestigations (process_investigation_sweep 2 9 [emx, eqx]).1 ≤ 2 ∧
      countInvestigations
        (schedule_job_reinvestigation 2 1 9 true id [emx, eqx]).1 ≤ 2) :=
  ⟨by decide, by decide, by decide,
    budget_preserved_by_sweeps 2 1 9 true id [emx, eqx]
      (by decide) (by decide) (by decide)⟩
